import Mathlib

/-!
Shallow embedding of the orchestration layer of xen-orchestra:
* the watcher bridge of `src/src/xapi.js` (`_waitObject`, `_watchTask`,
  `onAddOrUpdate`, `wrapError`);
* the SR maintenance-mode state machine and disk import of
  `src/@xen-orchestra/xapi/sr.js` (`enableMaintenanceMode`,
  `disableMaintenanceMode`, `importVdi`).

Asynchronous iteration (`asyncMap`, `asyncMapSettled`) is sequentialised in
list order; `asyncMapSettled` semantics (all items run, the combinator throws
the first error after all settled) is kept.  Remote calls are resolved by an
explicit environment record and every performed remote effect is logged, in
order, into an event trace.
-/

namespace XenOrchestra

/-! ## Watcher bridge (`src/src/xapi.js`) -/

/-- A notification-feed object: `$id`, `$ref`, plus the task fields
(`status`, `result`, `error_info`) read by `onAddOrUpdate`. -/
structure XObj where
  id : String
  ref : String
  status : String
  result : String
  error_info : List String
deriving DecidableEq, Repr

/-- The error built by `wrapError`: `message` and `code` are `error[0]`,
`params` is `error.slice(1)`. -/
structure WrappedError where
  message : String
  code : String
  params : List String
deriving DecidableEq, Repr

/-- `wrapError` from `src/src/xapi.js` lines 21-26. -/
def wrapError (error : List String) : WrappedError :=
  { message := error.headD "", code := error.headD "", params := error.tail }

/-- Association-list lookup for a watcher table keyed by strings; watcher
handles (promises) are identified by a `Nat`. -/
def lookupKey (k : String) : List (String × Nat) → Option Nat
  | [] => none
  | (k₀, v) :: rest => if k₀ = k then some v else lookupKey k rest

/-- `delete table[key]` on a watcher table. -/
def eraseKey (k : String) : List (String × Nat) → List (String × Nat)
  | [] => []
  | (k₀, v) :: rest => if k₀ = k then eraseKey k rest else (k₀, v) :: eraseKey k rest

/-- The shared get-or-create pattern of `_waitObject` and `_watchTask`: reuse
the watcher registered under `key` if any, otherwise register a fresh handle.
Returns the handle (promise) of the watcher together with the updated table. -/
def getOrCreateWatcher (table : List (String × Nat)) (key : String) (fresh : Nat) :
    Nat × List (String × Nat) :=
  match lookupKey key table with
  | some w => (w, table)
  | none => (fresh, table ++ [(key, fresh)])

/-- The two watcher tables of the `Xapi` object: `_objectWatchers` and
`_taskWatchers`. -/
structure WatcherState where
  objectWatchers : List (String × Nat)
  taskWatchers : List (String × Nat)
deriving DecidableEq, Repr

/-- `_waitObject(idOrUuidOrRef)` — lines 127-145 of `src/src/xapi.js`. -/
def waitObject (st : WatcherState) (key : String) (fresh : Nat) : Nat × WatcherState :=
  let (w, t) := getOrCreateWatcher st.objectWatchers key fresh
  (w, { st with objectWatchers := t })

/-- `_watchTask(ref)` — lines 174-195 of `src/src/xapi.js`. -/
def watchTask (st : WatcherState) (ref : String) (fresh : Nat) : Nat × WatcherState :=
  let (w, t) := getOrCreateWatcher st.taskWatchers ref fresh
  (w, { st with taskWatchers := t })

/-- What `onAddOrUpdate` does to a watcher's promise handle: each handle has
both a resolve and a reject capability, and a `Resolution` records which one
was invoked, on which handle, and with what value. -/
inductive Resolution
  | objResolved (w : Nat) (o : XObj)
  | objRejected (w : Nat) (e : WrappedError)
  | taskResolved (w : Nat) (v : String)
  | taskRejected (w : Nat) (e : WrappedError)
deriving DecidableEq, Repr

/-- One `if (key in objectsWatchers)` block of `onAddOrUpdate`: resolve the
watcher registered under `key` with the object and remove it. -/
def resolveObjKey (t : List (String × Nat)) (key : String) (o : XObj) :
    List (String × Nat) × List Resolution :=
  match lookupKey key t with
  | some w => (eraseKey key t, [Resolution.objResolved w o])
  | none => (t, [])

/-- The `if (ref in taskWatchers)` block of `onAddOrUpdate`: on status
`success` resolve with `result`, on `failure` reject with
`wrapError(error_info)` — removing the watcher in both cases — and on any
other status leave the watcher registered and do nothing. -/
def settleTask (t : List (String × Nat)) (o : XObj) :
    List (String × Nat) × List Resolution :=
  match lookupKey o.ref t with
  | some w =>
    if o.status = "success" then
      (eraseKey o.ref t, [Resolution.taskResolved w o.result])
    else if o.status = "failure" then
      (eraseKey o.ref t, [Resolution.taskRejected w (wrapError o.error_info)])
    else (t, [])
  | none => (t, [])

/-- `onAddOrUpdate` for one object of a batch — lines 85-117 of
`src/src/xapi.js`: resolve (and remove) the object watchers registered under
`$id` and then under `$ref` (the second check sees the table after the first
removal), then settle the task watcher registered under `$ref`; resolutions
are emitted in that order. -/
def processObject (st : WatcherState) (o : XObj) : WatcherState × List Resolution :=
  let a := resolveObjKey st.objectWatchers o.id o
  let b := resolveObjKey a.1 o.ref o
  let c := settleTask st.taskWatchers o
  (⟨b.1, c.1⟩, a.2 ++ b.2 ++ c.2)

/-- `onAddOrUpdate` over a whole notification batch (the `forEach`). -/
def processBatch (st : WatcherState) (objs : List XObj) : WatcherState × List Resolution :=
  objs.foldl (fun acc o =>
    let r := processObject acc.1 o
    (r.1, acc.2 ++ r.2)) (st, [])

/-! ## SR maintenance mode (`src/@xen-orchestra/xapi/sr.js`) -/

/-- The `xo:maintenanceState` record persisted in `SR.other_config`
(`timestamp`, `shutdownVms`, `unpluggedPbds`).  `shutdownVms` is kept as an
insertion-ordered association list (uuid, wasPaused). -/
structure MaintState where
  timestamp : Nat
  shutdownVms : List (String × Bool)
  unpluggedPbds : List String
deriving DecidableEq, Repr

/-- Errors surfaced by the SR maintenance operations.  `incorrectState`
carries the `actual` (caller-supplied `vmsToShutdown`) and `expected`
(discovered running uuids) payloads of `incorrectState(...)`. -/
inductive ItemError
  | plugFailed (uuid : String)
  | startFailed (uuid : String)
deriving DecidableEq, Repr

inductive SrError
  | conflict
  | incorrectState (actual expected : List String)
  | shutdownFailed (vm : String)
  | unplugFailed (pbd : String)
  | noMaintenanceState
  | aggregate (errors : List ItemError)
deriving DecidableEq, Repr

/-- One remote side effect performed against the pool, in order of issue. -/
inductive Ev
  | srAddMaintenance (timestamp : Nat)
  | readPowerState (vm : String)
  | vmCleanShutdown (vm : String)
  | vmHardShutdown (vm : String)
  | pbdUnplug (pbd : String)
  | srSetMaintenance (s : MaintState)
  | srRemoveMaintenance
  | vmStart (vm : String) (paused : Bool)
  | pbdPlug (pbd : String)
deriving DecidableEq, Repr

/-- A compensating action recorded through `$defer.onFailure.call(...)`, in
registration order. -/
inductive DeferAction
  | removeMaintenance
  | vmStart (ref : String) (paused : Bool)
  | pbdPlug (ref : String)
deriving DecidableEq, Repr

/-- The remote call the compensating action performs when invoked. -/
def deferEvent : DeferAction → Ev
  | .removeMaintenance => .srRemoveMaintenance
  | .vmStart r p => .vmStart r p
  | .pbdPlug r => .pbdPlug r

/-- Modelled from the spec: the `defer` decorator of the `golike-defer`
package (not under `src/`).  On failure of the decorated body it runs every
action recorded by `onFailure` in reverse registration order; a failing
action's error is captured and does not stop the remaining actions (hence
every action's call appears in the trace); on success the stack is discarded
unexecuted. -/
def runOnFailure (defers : List DeferAction) : List Ev :=
  defers.reverse.map deferEvent

/-- Environment resolving the remote reads and the success of the remote
commands issued by `enableMaintenanceMode`. -/
structure SrEnv where
  maintenancePresent : Bool
  timestamp : Nat
  vdis : List String
  vbds : String → List String
  vbdVm : String → String
  powerState : String → String
  vmUuid : String → String
  cleanOk : String → Bool
  hardOk : String → Bool
  pbds : List String
  pbdAttached : String → Bool
  pbdUuid : String → String
  unplugOk : String → Bool

/-- `handleVbd` — lines 62-71 of `sr.js`: read the VBD's VM; if that VM is
not already in the `runningVms` map, read its power state and record
(vmRef, isPaused) when Running or Paused.  The accumulator carries the map
(insertion-ordered) and the trace of power-state reads. -/
def handleVbd (env : SrEnv) (acc : List (String × Bool) × List Ev) (vbd : String) :
    List (String × Bool) × List Ev :=
  let vmRef := env.vbdVm vbd
  if acc.1.any (fun e => decide (e.1 = vmRef)) then acc
  else
    let ps := env.powerState vmRef
    let tr := acc.2 ++ [Ev.readPowerState vmRef]
    if ps = "Paused" then (acc.1 ++ [(vmRef, true)], tr)
    else if ps = "Running" then (acc.1 ++ [(vmRef, false)], tr)
    else (acc.1, tr)

/-- Lines 72-74 of `sr.js`: iterate the SR's VDIs, each VDI's VBDs, building
the deduplicated running-or-paused VM map. -/
def collectRunningVms (env : SrEnv) : List (String × Bool) × List Ev :=
  (env.vdis.flatMap env.vbds).foldl (handleVbd env) ([], [])

/-- One item of the `asyncMapSettled(runningVms, ...)` loop, lines 93-104:
record the uuid entry first, attempt a clean shutdown falling back to a hard
shutdown, and on success register a `VM.start` compensating action.  The
accumulator carries (shutdownVms entries, trace, defers, first error). -/
def shutdownStep (env : SrEnv)
    (acc : List (String × Bool) × List Ev × List DeferAction × Option SrError)
    (vm : String × Bool) :
    List (String × Bool) × List Ev × List DeferAction × Option SrError :=
  let (entries, tr, defers, err) := acc
  let (ref, isPaused) := vm
  let entries := entries ++ [(env.vmUuid ref, isPaused)]
  if env.cleanOk ref then
    (entries, tr ++ [Ev.vmCleanShutdown ref], defers ++ [DeferAction.vmStart ref isPaused], err)
  else if env.hardOk ref then
    (entries, tr ++ [Ev.vmCleanShutdown ref, Ev.vmHardShutdown ref],
     defers ++ [DeferAction.vmStart ref isPaused], err)
  else
    (entries, tr ++ [Ev.vmCleanShutdown ref, Ev.vmHardShutdown ref], defers,
     err <|> some (SrError.shutdownFailed ref))

/-- The whole `asyncMapSettled(runningVms, ...)` phase: every item runs,
and the phase as a whole fails afterwards iff some item failed. -/
def shutdownPhase (env : SrEnv) (vms : List (String × Bool)) :
    List (String × Bool) × List Ev × List DeferAction × Option SrError :=
  vms.foldl (shutdownStep env) ([], [], [], none)

/-- One item of the `asyncMapSettled(PBDs, ...)` loop, lines 107-115: if the
PBD is currently attached, record its uuid, unplug it, and on success
register a `PBD.plug` compensating action. -/
def pbdStep (env : SrEnv)
    (acc : List String × List Ev × List DeferAction × Option SrError)
    (pbd : String) :
    List String × List Ev × List DeferAction × Option SrError :=
  let (uuids, tr, defers, err) := acc
  if env.pbdAttached pbd then
    if env.unplugOk pbd then
      (uuids ++ [env.pbdUuid pbd], tr ++ [Ev.pbdUnplug pbd],
       defers ++ [DeferAction.pbdPlug pbd], err)
    else
      (uuids ++ [env.pbdUuid pbd], tr ++ [Ev.pbdUnplug pbd], defers,
       err <|> some (SrError.unplugFailed pbd))
  else (uuids, tr, defers, err)

/-- The whole `asyncMapSettled(PBDs, ...)` phase. -/
def pbdPhase (env : SrEnv) (pbds : List String) :
    List String × List Ev × List DeferAction × Option SrError :=
  pbds.foldl (pbdStep env) ([], [], [], none)

/-- The body of `enableMaintenanceMode` (lines 53-118 of `sr.js`), before the
`defer` decorator's failure handling: returns the result, the trace of remote
effects, and the compensating actions registered so far.
* the `SR.add_to_other_config` placeholder write throws `conflict` when the
  maintenance key is already present (add-if-absent);
* the `vmsToShutdown` check only verifies that every discovered running uuid
  is contained in `vmsToShutdown` (the `for ... of runningVmUuids` loop);
* `state.shutdownVms` / `state.unpluggedPbds` are local mutations, persisted
  remotely only by the single final `setFieldEntry`. -/
def enableBody (env : SrEnv) (vmsToShutdown : List String) :
    Except SrError Unit × List Ev × List DeferAction :=
  if env.maintenancePresent then (.error .conflict, [], [])
  else
    let tr₀ := [Ev.srAddMaintenance env.timestamp]
    let defers₀ := [DeferAction.removeMaintenance]
    let c := collectRunningVms env
    let runningVmUuids := c.1.map (fun e => env.vmUuid e.1)
    if runningVmUuids.any (fun u => decide (u ∉ vmsToShutdown)) then
      (.error (.incorrectState vmsToShutdown runningVmUuids), tr₀ ++ c.2, defers₀)
    else
      let s := shutdownPhase env c.1
      match s.2.2.2 with
      | some e => (.error e, tr₀ ++ c.2 ++ s.2.1, defers₀ ++ s.2.2.1)
      | none =>
        let p := pbdPhase env env.pbds
        match p.2.2.2 with
        | some e =>
          (.error e, tr₀ ++ c.2 ++ s.2.1 ++ p.2.1, defers₀ ++ s.2.2.1 ++ p.2.2.1)
        | none =>
          let st : MaintState := ⟨env.timestamp, s.1, p.1⟩
          (.ok (), tr₀ ++ c.2 ++ s.2.1 ++ p.2.1 ++ [Ev.srSetMaintenance st],
           defers₀ ++ s.2.2.1 ++ p.2.2.1)

/-- `enableMaintenanceMode` as decorated by `defer`: on body failure the
recorded compensating actions run in reverse registration order and the
original error is rethrown; on success nothing is compensated. -/
def enableMaintenanceMode (env : SrEnv) (vmsToShutdown : List String) :
    Except SrError Unit × List Ev :=
  let r := enableBody env vmsToShutdown
  match r.1 with
  | .ok _ => (.ok (), r.2.1)
  | .error e => (.error e, r.2.1 ++ runOnFailure r.2.2)

/-- Environment for `disableMaintenanceMode`: the parsed maintenance state
found in `SR.other_config` (none when the key is absent, in which case the
`JSON.parse` of `undefined` throws), and the success of each
`PBD.plug` / `VM.start` attempt, keyed by the recorded uuid (the
`get_by_uuid` resolution is folded into the attempt). -/
structure DisEnv where
  maintenanceState : Option MaintState
  plugOk : String → Bool
  startOk : String → Bool

/-- `disableMaintenanceMode` — lines 121-148 of `sr.js`: parse the persisted
state (fails when absent), remove the metadata key, then best-effort re-plug
every recorded PBD and restart every recorded VM, collecting per-item errors,
and throw an `AggregateError` of all collected errors iff any item failed. -/
def disableMaintenanceMode (env : DisEnv) : Except SrError Unit × List Ev :=
  match env.maintenanceState with
  | none => (.error .noMaintenanceState, [])
  | some state =>
    let plugs := state.unpluggedPbds.foldl
      (fun (acc : List Ev × List ItemError) uuid =>
        if env.plugOk uuid then (acc.1 ++ [Ev.pbdPlug uuid], acc.2)
        else (acc.1 ++ [Ev.pbdPlug uuid], acc.2 ++ [ItemError.plugFailed uuid]))
      ([], [])
    let starts := state.shutdownVms.foldl
      (fun (acc : List Ev × List ItemError) e =>
        if env.startOk e.1 then (acc.1 ++ [Ev.vmStart e.1 e.2], acc.2)
        else (acc.1 ++ [Ev.vmStart e.1 e.2], acc.2 ++ [ItemError.startFailed e.1]))
      ([], [])
    let errors := plugs.2 ++ starts.2
    (if errors.isEmpty then .ok () else .error (.aggregate errors),
     Ev.srRemoveMaintenance :: (plugs.1 ++ starts.1))

/-- The remote pool's view of the `xo:maintenanceState` entry of
`SR.other_config`, given the sequence of calls issued against it:
`add_to_other_config` installs the placeholder (timestamp only),
`setFieldEntry` overwrites it with a full state, `remove_from_other_config`
deletes it; reads and VM/PBD commands leave it untouched. -/
def remoteMaintStep (r : Option (Nat ⊕ MaintState)) : Ev → Option (Nat ⊕ MaintState)
  | Ev.srAddMaintenance ts => some (Sum.inl ts)
  | Ev.srSetMaintenance s => some (Sum.inr s)
  | Ev.srRemoveMaintenance => none
  | _ => r

def remoteMaintValue (tr : List Ev) : Option (Nat ⊕ MaintState) :=
  tr.foldl remoteMaintStep none

/-! ## Disk import (`importVdi`, lines 150-175 of `sr.js`) -/

/-- An inbound disk-image byte stream: the logical size encoded in its
trailing VHD footer, the optional `length` hint, and the payload as seen by
the downstream consumer. -/
structure VdiStream where
  footerCurrentSize : Nat
  length : Option Nat
  payload : List Nat
deriving DecidableEq, Repr

/-- `VDI_FORMAT_VHD` from `./index.js` (not under `src/`); an opaque tag. -/
def VDI_FORMAT_VHD : String := "vhd"

/-- A raw (unstructured) format tag, for contrast with `VDI_FORMAT_VHD`. -/
def VDI_FORMAT_RAW : String := "raw"

structure VhdFooter where
  currentSize : Nat
deriving DecidableEq, Repr

/-- Modelled from the spec: `peekFooterFromVhdStream` of the `vhd-lib`
collaborator (not under `src/`) — yields the stream's trailing footer
(carrying the logical size) without consuming payload bytes from the stream
as seen by its eventual consumer; the returned stream is therefore the input
stream unchanged. -/
def peekFooterFromStream (s : VdiStream) : VhdFooter × VdiStream :=
  ({ currentSize := s.footerCurrentSize }, s)

inductive VdiError
  | assertionFailed
deriving DecidableEq, Repr

/-- Remote effects and registrations performed by `importVdi`, in order.
`importContent` carries the stream handed to `VDI_importContent`. -/
inductive VdiEv
  | peekFooter
  | vdiCreate (ref : String) (size : Nat)
  | deferDestroy (ref : String)
  | importContent (ref : String) (format : String) (s : VdiStream)
deriving DecidableEq, Repr

/-- Environment for `importVdi`: the ref `VDI_create` returns. -/
structure VdiEnv where
  newVdiRef : String

/-- `importVdi` — lines 150-175 of `sr.js` (the `name_label` default and the
pass-through `vdiCreateOpts` are payload of `VDI_create`, not modelled):
when `virtual_size` is absent, take it from the peeked VHD footer when the
format is `VDI_FORMAT_VHD`, otherwise from `stream.length`, asserting it is
defined; then create the VDI with that size, register the destroy-on-failure
compensating action, and stream the content into the disk. -/
def importVdi (env : VdiEnv) (stream : VdiStream) (format : String)
    (virtual_size : Option Nat) : Except VdiError String × List VdiEv :=
  let sized : Except VdiError (Nat × VdiStream × List VdiEv) :=
    match virtual_size with
    | some n => .ok (n, stream, [])
    | none =>
      if format = VDI_FORMAT_VHD then
        let p := peekFooterFromStream stream
        .ok (p.1.currentSize, p.2, [VdiEv.peekFooter])
      else
        match stream.length with
        | some n => .ok (n, stream, [])
        | none => .error .assertionFailed
  match sized with
  | .error e => (.error e, [])
  | .ok (size, stream₁, tr) =>
    let ref := env.newVdiRef
    (.ok ref,
     tr ++ [VdiEv.vdiCreate ref size, VdiEv.deferDestroy ref,
            VdiEv.importContent ref format stream₁])

/-! ## Concrete environments used by witnesses and counterexamples -/

/-- An SR with no VDIs and no PBDs, not in maintenance mode. -/
def envBase : SrEnv where
  maintenancePresent := false
  timestamp := 0
  vdis := []
  vbds := fun _ => []
  vbdVm := fun _ => ""
  powerState := fun _ => "Halted"
  vmUuid := fun r => r
  cleanOk := fun _ => true
  hardOk := fun _ => true
  pbds := []
  pbdAttached := fun _ => false
  pbdUuid := fun r => r
  unplugOk := fun _ => true

/-- An SR with one VDI whose VBD belongs to the running VM `vmA`, and one
attached PBD. -/
def envOneVm : SrEnv where
  maintenancePresent := false
  timestamp := 5
  vdis := ["vdi1"]
  vbds := fun _ => ["vbd1"]
  vbdVm := fun _ => "vmA"
  powerState := fun _ => "Running"
  vmUuid := fun r => r ++ "-uuid"
  cleanOk := fun _ => true
  hardOk := fun _ => true
  pbds := ["pbd1"]
  pbdAttached := fun _ => true
  pbdUuid := fun r => r ++ "-uuid"
  unplugOk := fun _ => true

/-- An SR with two running VMs `vmA` and `vmB`; `vmA` shuts down cleanly
while both the clean and the hard shutdown of `vmB` fail. -/
def envTwoVms : SrEnv where
  maintenancePresent := false
  timestamp := 7
  vdis := ["vdi1"]
  vbds := fun _ => ["vbd1", "vbd2"]
  vbdVm := fun b => if b = "vbd1" then "vmA" else "vmB"
  powerState := fun _ => "Running"
  vmUuid := fun r => r
  cleanOk := fun r => decide (r = "vmA")
  hardOk := fun _ => false
  pbds := []
  pbdAttached := fun _ => false
  pbdUuid := fun r => r
  unplugOk := fun _ => true

/-- A maintenance state recording one unplugged PBD and one shut-down VM,
where the re-plug fails and the restart succeeds. -/
def disEnv1 : DisEnv where
  maintenanceState := some ⟨3, [("vmU", false)], ["pbdU"]⟩
  plugOk := fun _ => false
  startOk := fun _ => true

/-! ## Watcher-table lemmas -/

theorem lookupKey_append_self (k : String) (f : Nat) (l : List (String × Nat))
    (h : lookupKey k l = none) : lookupKey k (l ++ [(k, f)]) = some f := by
  induction l with
  | nil => simp [lookupKey]
  | cons a t ih =>
    obtain ⟨k₀, v⟩ := a
    by_cases hk : k₀ = k
    · simp [lookupKey, hk] at h
    · simp only [lookupKey, hk, if_false] at h
      simpa [lookupKey, hk] using ih h

theorem lookupKey_eraseKey_self (k : String) (l : List (String × Nat)) :
    lookupKey k (eraseKey k l) = none := by
  induction l with
  | nil => rfl
  | cons a t ih =>
    obtain ⟨k₀, v⟩ := a
    by_cases hk : k₀ = k <;> simp [eraseKey, lookupKey, hk, ih]

theorem lookupKey_eraseKey_ne (k r : String) (l : List (String × Nat)) (h : k ≠ r) :
    lookupKey r (eraseKey k l) = lookupKey r l := by
  induction l with
  | nil => rfl
  | cons a t ih =>
    obtain ⟨k₀, v⟩ := a
    by_cases hk : k₀ = k
    · subst hk
      simp [eraseKey, lookupKey, h, ih]
    · simp [eraseKey, lookupKey, hk, ih]

theorem lookupKey_eq_none_iff (k : String) (l : List (String × Nat)) :
    lookupKey k l = none ↔ k ∉ l.map Prod.fst := by
  induction l with
  | nil => simp [lookupKey]
  | cons a t ih =>
    obtain ⟨k₀, v⟩ := a
    by_cases hk : k₀ = k
    · subst hk
      simp [lookupKey]
    · rw [show lookupKey k ((k₀, v) :: t) = lookupKey k t by simp [lookupKey, hk], ih]
      simp [Ne.symm hk]

theorem getOrCreateWatcher_second (t : List (String × Nat)) (k : String) (f₁ f₂ : Nat) :
    getOrCreateWatcher (getOrCreateWatcher t k f₁).2 k f₂ = getOrCreateWatcher t k f₁ := by
  rcases h : lookupKey k t with _ | w
  · simp [getOrCreateWatcher, h, lookupKey_append_self k f₁ t h]
  · simp [getOrCreateWatcher, h]

theorem getOrCreateWatcher_nodup (t : List (String × Nat)) (k : String) (f : Nat)
    (h : (t.map Prod.fst).Nodup) :
    (((getOrCreateWatcher t k f).2).map Prod.fst).Nodup := by
  rcases hl : lookupKey k t with _ | w
  · have hk := (lookupKey_eq_none_iff k t).1 hl
    have h₂ : (getOrCreateWatcher t k f).2 = t ++ [(k, f)] := by
      simp [getOrCreateWatcher, hl]
    have h₃ : ((t ++ [(k, f)]).map Prod.fst) = t.map Prod.fst ++ [k] := by simp
    rw [h₂, h₃]
    refine List.Nodup.append h (List.nodup_singleton k) ?_
    intro a ha hmem
    have hak : a = k := by simpa using hmem
    exact hk (hak ▸ ha)
  · simpa [getOrCreateWatcher, hl] using h

/-- **C4.** For every key, at most one PendingWatch entry exists in the
watcher table (tables with distinct keys stay that way), and a second wait on
a key that already has an unresolved watch — via `_waitObject` for objects,
via `_watchTask` for tasks — returns the same promise handle as the first and
leaves the table unchanged, so all concurrent waiters on that key observe the
identical resolution value. -/
theorem claim_C4 (st : WatcherState) (key : String) (f₁ f₂ : Nat) :
    (waitObject (waitObject st key f₁).2 key f₂).1 = (waitObject st key f₁).1 ∧
    (waitObject (waitObject st key f₁).2 key f₂).2 = (waitObject st key f₁).2 ∧
    (watchTask (watchTask st key f₁).2 key f₂).1 = (watchTask st key f₁).1 ∧
    (watchTask (watchTask st key f₁).2 key f₂).2 = (watchTask st key f₁).2 ∧
    ((st.objectWatchers.map Prod.fst).Nodup →
      ((waitObject st key f₁).2.objectWatchers.map Prod.fst).Nodup) ∧
    ((st.taskWatchers.map Prod.fst).Nodup →
      ((watchTask st key f₁).2.taskWatchers.map Prod.fst).Nodup) := by
  have ho := getOrCreateWatcher_second st.objectWatchers key f₁ f₂
  have ht := getOrCreateWatcher_second st.taskWatchers key f₁ f₂
  refine ⟨?_, ?_, ?_, ?_, ?_, ?_⟩
  · simp [waitObject, ho]
  · simp [waitObject, ho]
  · simp [watchTask, ht]
  · simp [watchTask, ht]
  · exact fun h => by simpa [waitObject] using getOrCreateWatcher_nodup _ key f₁ h
  · exact fun h => by simpa [watchTask] using getOrCreateWatcher_nodup _ key f₁ h

/-- Closed witness for C4 at a table already holding a watch on `"k"`. -/
theorem claim_C4_witness :
    (waitObject (waitObject ⟨[("k", 7)], []⟩ "k" 1).2 "k" 2).1
      = (waitObject ⟨[("k", 7)], []⟩ "k" 1).1 ∧
    (waitObject ⟨[("k", 7)], []⟩ "k" 1).1 = 7 ∧
    ((waitObject ⟨[("k", 7)], []⟩ "k" 1).2.objectWatchers.map Prod.fst).Nodup := by
  have h := claim_C4 ⟨[("k", 7)], []⟩ "k" 1 2
  exact ⟨h.1, by decide, h.2.2.2.2.1 (by decide)⟩

/-! ## `onAddOrUpdate` lemmas -/

theorem resolveObjKey_out (t : List (String × Nat)) (key : String) (o : XObj) :
    ∀ r ∈ (resolveObjKey t key o).2, ∃ w₀, r = Resolution.objResolved w₀ o := by
  rcases h : lookupKey key t with _ | w <;> simp [resolveObjKey, h]

theorem settleTask_success (t : List (String × Nat)) (o : XObj) (w : Nat)
    (hw : lookupKey o.ref t = some w) (hs : o.status = "success") :
    settleTask t o = (eraseKey o.ref t, [Resolution.taskResolved w o.result]) := by
  simp [settleTask, hw, hs]

theorem settleTask_failure (t : List (String × Nat)) (o : XObj) (w : Nat)
    (hw : lookupKey o.ref t = some w) (hs : o.status = "failure") :
    settleTask t o = (eraseKey o.ref t, [Resolution.taskRejected w (wrapError o.error_info)]) := by
  simp [settleTask, hw, hs]

theorem settleTask_other (t : List (String × Nat)) (o : XObj)
    (h₁ : o.status ≠ "success") (h₂ : o.status ≠ "failure") :
    settleTask t o = (t, []) := by
  rcases h : lookupKey o.ref t with _ | w <;> simp [settleTask, h, h₁, h₂]

theorem settleTask_out (t : List (String × Nat)) (o : XObj) :
    ∀ r ∈ (settleTask t o).2,
      (∃ w, r = Resolution.taskResolved w o.result) ∨
      (∃ w, r = Resolution.taskRejected w (wrapError o.error_info)) := by
  rcases h : lookupKey o.ref t with _ | w
  · simp [settleTask, h]
  · by_cases hs : o.status = "success"
    · simp [settleTask, h, hs]
    · by_cases hf : o.status = "failure" <;> simp [settleTask, h, hs, hf]

/-- **C5.** For a task watched via `_watchTask` (a watcher registered under
the task's ref), a notification with status `"success"` resolves the watcher
with the task's `result` field and removes the entry; a notification with
status `"failure"` rejects it with a wrapped error whose `code` is the first
element and whose `params` are the remaining elements of the remote
`error_info` tuple, and removes the entry; any other status produces no task
settlement at all and leaves the watcher registered — so the handle fires
exactly once, on the first terminal notification. -/
theorem claim_C5 (st : WatcherState) (o : XObj) (w : Nat) (c : String) (ps : List String)
    (hw : lookupKey o.ref st.taskWatchers = some w) (he : o.error_info = c :: ps) :
    (o.status = "success" →
      Resolution.taskResolved w o.result ∈ (processObject st o).2 ∧
      lookupKey o.ref ((processObject st o).1).taskWatchers = none) ∧
    (o.status = "failure" →
      Resolution.taskRejected w { message := c, code := c, params := ps }
          ∈ (processObject st o).2 ∧
      lookupKey o.ref ((processObject st o).1).taskWatchers = none) ∧
    (o.status ≠ "success" → o.status ≠ "failure" →
      (∀ r ∈ (processObject st o).2, ∃ w₀ o₀, r = Resolution.objResolved w₀ o₀) ∧
      lookupKey o.ref ((processObject st o).1).taskWatchers = some w) := by
  refine ⟨fun hs => ?_, fun hs => ?_, fun h₁ h₂ => ?_⟩
  · rw [show (processObject st o) = _ from rfl]
    simp [processObject, settleTask_success st.taskWatchers o w hw hs,
      lookupKey_eraseKey_self]
  · have hwrap : wrapError o.error_info = { message := c, code := c, params := ps } := by
      simp [wrapError, he]
    simp [processObject, settleTask_failure st.taskWatchers o w hw hs, hwrap,
      lookupKey_eraseKey_self]
  · constructor
    · intro r hr
      simp [processObject, settleTask_other st.taskWatchers o h₁ h₂] at hr
      rcases hr with h | h
      · obtain ⟨w₀, rfl⟩ := resolveObjKey_out _ _ _ _ h
        exact ⟨w₀, o, rfl⟩
      · obtain ⟨w₀, rfl⟩ := resolveObjKey_out _ _ _ _ h
        exact ⟨w₀, o, rfl⟩
    · simpa [processObject, settleTask_other st.taskWatchers o h₁ h₂] using hw

/-- Closed witness for C5: a watched task ref `"t"`, exercised on a success
notification and on a pending-status notification. -/
theorem claim_C5_witness :
    (Resolution.taskResolved 3 "ok"
        ∈ (processObject ⟨[], [("t", 3)]⟩ ⟨"i", "t", "success", "ok", ["E", "p"]⟩).2 ∧
      lookupKey "t"
        ((processObject ⟨[], [("t", 3)]⟩ ⟨"i", "t", "success", "ok", ["E", "p"]⟩).1).taskWatchers
        = none) ∧
    lookupKey "t"
        ((processObject ⟨[], [("t", 3)]⟩ ⟨"i", "t", "pending", "ok", ["E", "p"]⟩).1).taskWatchers
      = some 3 := by
  have h₁ := claim_C5 ⟨[], [("t", 3)]⟩ ⟨"i", "t", "success", "ok", ["E", "p"]⟩ 3 "E" ["p"]
    (by decide) rfl
  have h₂ := claim_C5 ⟨[], [("t", 3)]⟩ ⟨"i", "t", "pending", "ok", ["E", "p"]⟩ 3 "E" ["p"]
    (by decide) rfl
  exact ⟨h₁.1 rfl, (h₂.2.2 (by decide) (by decide)).2⟩

/-- **C9.** A single notification for one object resolves both of two
distinct pending object watches in the same step: when one watch is keyed by
the object's stable identifier `$id` and another by its opaque reference
`$ref`, both are resolved with the same object value and both entries are
removed from the watcher table. -/
theorem claim_C9 (st : WatcherState) (o : XObj) (w₁ w₂ : Nat)
    (hne : o.id ≠ o.ref)
    (h₁ : lookupKey o.id st.objectWatchers = some w₁)
    (h₂ : lookupKey o.ref st.objectWatchers = some w₂) :
    Resolution.objResolved w₁ o ∈ (processObject st o).2 ∧
    Resolution.objResolved w₂ o ∈ (processObject st o).2 ∧
    lookupKey o.id ((processObject st o).1).objectWatchers = none ∧
    lookupKey o.ref ((processObject st o).1).objectWatchers = none := by
  have ha : resolveObjKey st.objectWatchers o.id o
      = (eraseKey o.id st.objectWatchers, [Resolution.objResolved w₁ o]) := by
    simp [resolveObjKey, h₁]
  have h₂e : lookupKey o.ref (eraseKey o.id st.objectWatchers) = some w₂ := by
    rw [lookupKey_eraseKey_ne o.id o.ref _ hne]; exact h₂
  have hb : resolveObjKey (eraseKey o.id st.objectWatchers) o.ref o
      = (eraseKey o.ref (eraseKey o.id st.objectWatchers), [Resolution.objResolved w₂ o]) := by
    simp [resolveObjKey, h₂e]
  refine ⟨?_, ?_, ?_, ?_⟩
  · simp [processObject, ha, hb]
  · simp [processObject, ha, hb]
  · simp only [processObject, ha, hb]
    rw [lookupKey_eraseKey_ne o.ref o.id _ (Ne.symm hne)]
    exact lookupKey_eraseKey_self o.id st.objectWatchers
  · simp only [processObject, ha, hb]
    exact lookupKey_eraseKey_self o.ref _

/-- Closed witness for C9: watches on `"id1"` and `"ref1"` both resolved by
one notification for the object whose `$id` is `"id1"` and `$ref` is
`"ref1"`. -/
theorem claim_C9_witness :
    Resolution.objResolved 1 ⟨"id1", "ref1", "", "", []⟩
        ∈ (processObject ⟨[("id1", 1), ("ref1", 2)], []⟩ ⟨"id1", "ref1", "", "", []⟩).2 ∧
    Resolution.objResolved 2 ⟨"id1", "ref1", "", "", []⟩
        ∈ (processObject ⟨[("id1", 1), ("ref1", 2)], []⟩ ⟨"id1", "ref1", "", "", []⟩).2 := by
  have h := claim_C9 ⟨[("id1", 1), ("ref1", 2)], []⟩ ⟨"id1", "ref1", "", "", []⟩ 1 2
    (by decide) (by decide) (by decide)
  exact ⟨h.1, h.2.1⟩

theorem processObject_no_objRejected (st : WatcherState) (o : XObj) (w : Nat)
    (e : WrappedError) : Resolution.objRejected w e ∉ (processObject st o).2 := by
  intro hmem
  simp only [processObject, List.append_assoc, List.mem_append] at hmem
  rcases hmem with h | h | h
  · obtain ⟨w₀, hw⟩ := resolveObjKey_out _ _ _ _ h
    exact Resolution.noConfusion hw
  · obtain ⟨w₀, hw⟩ := resolveObjKey_out _ _ _ _ h
    exact Resolution.noConfusion hw
  · rcases settleTask_out _ _ _ h with ⟨w₀, hw⟩ | ⟨w₀, hw⟩ <;>
      exact Resolution.noConfusion hw

theorem processBatch_cons (st : WatcherState) (o : XObj) (objs : List XObj) :
    processBatch st (o :: objs)
      = ((processBatch (processObject st o).1 objs).1,
         (processObject st o).2 ++ (processBatch (processObject st o).1 objs).2) := by
  have acc : ∀ (objs : List XObj) (st : WatcherState) (init : List Resolution),
      objs.foldl (fun acc o =>
          let r := processObject acc.1 o
          (r.1, acc.2 ++ r.2)) (st, init)
        = ((processBatch st objs).1, init ++ (processBatch st objs).2) := by
    intro objs
    induction objs with
    | nil => intro st init; simp [processBatch]
    | cons o rest ih =>
      intro st init
      simp only [processBatch, List.foldl_cons]
      rw [ih, ih]
      simp
  simp only [processBatch, List.foldl_cons]
  rw [acc, acc]
  simp

/-- **C10.** A pending object watch is never rejected: `onAddOrUpdate` is the
only code settling watcher promises, and over any sequence of notification
batches it never invokes an object watcher's reject capability — every
settlement of an object watcher is a resolution — so a wait for an object
either returns an object or stays pending forever; it never throws. -/
theorem claim_C10 (st : WatcherState) (objs : List XObj) (w : Nat) (e : WrappedError) :
    Resolution.objRejected w e ∉ (processBatch st objs).2 := by
  induction objs generalizing st with
  | nil => simp [processBatch]
  | cons o rest ih =>
    rw [processBatch_cons]
    simp only [List.mem_append, not_or]
    exact ⟨processObject_no_objRejected st o w e, ih _⟩

/-- Closed witness for C10 on a batch that resolves an object watch. -/
theorem claim_C10_witness :
    Resolution.objRejected 1 (wrapError ["E"])
      ∉ (processBatch ⟨[("id1", 1)], []⟩ [⟨"id1", "r", "", "", []⟩]).2 :=
  claim_C10 ⟨[("id1", 1)], []⟩ [⟨"id1", "r", "", "", []⟩] 1 (wrapError ["E"])

/-! ## Maintenance-mode lemmas -/

theorem handleVbd_snd (env : SrEnv) (acc : List (String × Bool) × List Ev) (v : String) :
    (handleVbd env acc v).2 = acc.2 ∨
    (handleVbd env acc v).2 = acc.2 ++ [Ev.readPowerState (env.vbdVm v)] := by
  unfold handleVbd
  by_cases hmem : acc.1.any (fun e => decide (e.1 = env.vbdVm v))
  · left; simp [hmem]
  · right
    by_cases hp : env.powerState (env.vbdVm v) = "Paused"
    · simp [hmem, hp]
    · by_cases hr : env.powerState (env.vbdVm v) = "Running" <;> simp [hmem, hp, hr]

theorem foldl_handleVbd_reads (env : SrEnv) (l : List String)
    (acc : List (String × Bool) × List Ev)
    (h : ∀ e ∈ acc.2, ∃ vm, e = Ev.readPowerState vm) :
    ∀ e ∈ (l.foldl (handleVbd env) acc).2, ∃ vm, e = Ev.readPowerState vm := by
  induction l generalizing acc with
  | nil => exact h
  | cons v t ih =>
    rw [List.foldl_cons]
    refine ih (handleVbd env acc v) ?_
    rcases handleVbd_snd env acc v with hs | hs <;> rw [hs]
    · exact h
    · intro e he
      rcases List.mem_append.1 he with he | he
      · exact h e he
      · exact ⟨env.vbdVm v, by simpa using he⟩

theorem collectRunningVms_reads (env : SrEnv) :
    ∀ e ∈ (collectRunningVms env).2, ∃ vm, e = Ev.readPowerState vm :=
  foldl_handleVbd_reads env _ ([], []) (by simp)

/-! Branch characterizations of `enableBody`. -/

theorem enableBody_conflict (env : SrEnv) (vms : List String)
    (hm : env.maintenancePresent = true) :
    enableBody env vms = (.error .conflict, [], []) := by
  simp only [enableBody]
  rw [hm, if_pos rfl]

theorem enableBody_mismatch (env : SrEnv) (vms : List String)
    (hm : env.maintenancePresent = false)
    (hany : (((collectRunningVms env).1.map (fun e => env.vmUuid e.1)).any
        (fun u => decide (u ∉ vms))) = true) :
    enableBody env vms
      = (.error (.incorrectState vms
            ((collectRunningVms env).1.map (fun e => env.vmUuid e.1))),
         Ev.srAddMaintenance env.timestamp :: (collectRunningVms env).2,
         [DeferAction.removeMaintenance]) := by
  simp only [enableBody]
  rw [hm, if_neg (show ¬(false = true) by simp), if_pos hany]
  simp

theorem enableBody_shutdownFail (env : SrEnv) (vms : List String) (e : SrError)
    (hm : env.maintenancePresent = false)
    (hany : (((collectRunningVms env).1.map (fun e => env.vmUuid e.1)).any
        (fun u => decide (u ∉ vms))) = false)
    (hs : (shutdownPhase env (collectRunningVms env).1).2.2.2 = some e) :
    enableBody env vms
      = (.error e,
         Ev.srAddMaintenance env.timestamp ::
           ((collectRunningVms env).2 ++ (shutdownPhase env (collectRunningVms env).1).2.1),
         DeferAction.removeMaintenance ::
           (shutdownPhase env (collectRunningVms env).1).2.2.1) := by
  simp only [enableBody]
  rw [hm, if_neg (show ¬(false = true) by simp), if_neg (by rw [hany]; simp), hs]
  simp

theorem enableBody_pbdFail (env : SrEnv) (vms : List String) (e : SrError)
    (hm : env.maintenancePresent = false)
    (hany : (((collectRunningVms env).1.map (fun e => env.vmUuid e.1)).any
        (fun u => decide (u ∉ vms))) = false)
    (hs : (shutdownPhase env (collectRunningVms env).1).2.2.2 = none)
    (hp : (pbdPhase env env.pbds).2.2.2 = some e) :
    enableBody env vms
      = (.error e,
         Ev.srAddMaintenance env.timestamp ::
           ((collectRunningVms env).2 ++
             ((shutdownPhase env (collectRunningVms env).1).2.1 ++ (pbdPhase env env.pbds).2.1)),
         DeferAction.removeMaintenance ::
           ((shutdownPhase env (collectRunningVms env).1).2.2.1
             ++ (pbdPhase env env.pbds).2.2.1)) := by
  simp only [enableBody]
  rw [hm, if_neg (show ¬(false = true) by simp), if_neg (by rw [hany]; simp), hs, hp]
  simp

theorem enableBody_ok (env : SrEnv) (vms : List String)
    (hm : env.maintenancePresent = false)
    (hany : (((collectRunningVms env).1.map (fun e => env.vmUuid e.1)).any
        (fun u => decide (u ∉ vms))) = false)
    (hs : (shutdownPhase env (collectRunningVms env).1).2.2.2 = none)
    (hp : (pbdPhase env env.pbds).2.2.2 = none) :
    enableBody env vms
      = (.ok (),
         Ev.srAddMaintenance env.timestamp ::
           ((collectRunningVms env).2 ++
             ((shutdownPhase env (collectRunningVms env).1).2.1 ++
               ((pbdPhase env env.pbds).2.1 ++
                 [Ev.srSetMaintenance
                     ⟨env.timestamp, (shutdownPhase env (collectRunningVms env).1).1,
                      (pbdPhase env env.pbds).1⟩]))),
         DeferAction.removeMaintenance ::
           ((shutdownPhase env (collectRunningVms env).1).2.2.1
             ++ (pbdPhase env env.pbds).2.2.1)) := by
  simp only [enableBody]
  rw [hm, if_neg (show ¬(false = true) by simp), if_neg (by rw [hany]; simp), hs, hp]
  simp

/-- **C6.** Calling `enableMaintenanceMode` on an SR whose `other_config`
already contains the maintenance key fails with the conflict from the
add-if-absent metadata write before any other effect: its trace is empty —
no VM power state is read, no VM is shut down, no PBD is unplugged, and no
compensating action runs. -/
theorem claim_C6 (env : SrEnv) (vmsToShutdown : List String)
    (h : env.maintenancePresent = true) :
    enableMaintenanceMode env vmsToShutdown = (.error .conflict, []) := by
  simp [enableMaintenanceMode, enableBody, h, runOnFailure]

/-- Closed witness for C6. -/
theorem claim_C6_witness :
    enableMaintenanceMode { envBase with maintenancePresent := true } ["u1"]
      = (.error .conflict, []) :=
  claim_C6 { envBase with maintenancePresent := true } ["u1"] rfl

/-- Counterexample to **C1** as stated: on an SR with no dependent
running-or-paused VM at all, a `vmsToShutdown` containing the uuid `"ghost"`
— which is not the uuid of any discovered running VM — does not make
`enableMaintenanceMode` fail with `IncorrectState`; the call succeeds.  The
check of lines 79-88 of `sr.js` only verifies the inclusion of the running
set in `vmsToShutdown`, never the converse. -/
theorem claim_C1_cex :
    (collectRunningVms envBase).1 = [] ∧
    enableMaintenanceMode envBase ["ghost"]
      = (.ok (), [Ev.srAddMaintenance 0, Ev.srSetMaintenance ⟨0, [], []⟩]) := by
  exact ⟨rfl, rfl⟩

/-- **C1 (amended).** If some discovered running-or-paused dependent VM's
uuid is missing from the caller-supplied `vmsToShutdown`, the operation fails
with `IncorrectState` carrying `vmsToShutdown` as `actual` and the discovered
running uuids as `expected`, before any VM shutdown or PBD unplug is
performed (uuids in `vmsToShutdown` that are not discovered running VMs are
not checked and cause no failure — see the counterexample). -/
theorem claim_C1 (env : SrEnv) (vmsToShutdown : List String) (u : String)
    (hm : env.maintenancePresent = false)
    (hu : u ∈ (collectRunningVms env).1.map (fun e => env.vmUuid e.1))
    (hnot : u ∉ vmsToShutdown) :
    (enableMaintenanceMode env vmsToShutdown).1
      = .error (.incorrectState vmsToShutdown
          ((collectRunningVms env).1.map (fun e => env.vmUuid e.1))) ∧
    ∀ e ∈ (enableMaintenanceMode env vmsToShutdown).2,
      (∀ vm, e ≠ Ev.vmCleanShutdown vm) ∧ (∀ vm, e ≠ Ev.vmHardShutdown vm) ∧
      (∀ p, e ≠ Ev.pbdUnplug p) := by
  have hany : (((collectRunningVms env).1.map (fun e => env.vmUuid e.1)).any
      (fun u => decide (u ∉ vmsToShutdown))) = true := by
    rw [List.any_eq_true]
    exact ⟨u, hu, by simpa using hnot⟩
  have hbody := enableBody_mismatch env vmsToShutdown hm hany
  constructor
  · simp [enableMaintenanceMode, hbody]
  · intro e he
    simp only [enableMaintenanceMode, hbody, runOnFailure, List.reverse_cons,
      List.reverse_nil, List.nil_append, List.map_cons, List.map_nil, deferEvent,
      List.mem_append, List.mem_cons, List.mem_singleton, List.not_mem_nil] at he
    rcases he with he | he
    · rcases he with he | he
      · subst he
        exact ⟨fun vm => by simp, fun vm => by simp, fun p => by simp⟩
      · obtain ⟨vm, rfl⟩ := collectRunningVms_reads env e he
        exact ⟨fun vm => by simp, fun vm => by simp, fun p => by simp⟩
    · rcases he with he | he
      · subst he
        exact ⟨fun vm => by simp, fun vm => by simp, fun p => by simp⟩
      · exact he.elim

/-- Closed witness for C1 (amended): the running VM `vmA` is omitted from an
empty `vmsToShutdown`. -/
theorem claim_C1_witness :
    (enableMaintenanceMode envOneVm []).1
      = .error (.incorrectState [] ["vmA-uuid"]) := by
  have h := claim_C1 envOneVm [] "vmA-uuid" rfl (by decide) (by decide)
  exact h.1

/-- **C7.** `importVdi` without an explicit `virtual_size`: for the VHD
format the logical size is taken from the stream's peeked trailing footer and
the stream reaches `VDI_importContent` unconsumed; for any other format the
stream's `length` hint is used, and the call fails with the assertion error
when that hint is absent; the VDI is created with exactly the chosen size,
the destroy-on-failure compensating action is registered after the creation
and before the content is streamed in. -/
theorem claim_C7 (env : VdiEnv) (stream : VdiStream) (format : String) :
    (format = VDI_FORMAT_VHD →
      importVdi env stream format none
        = (.ok env.newVdiRef,
           [VdiEv.peekFooter,
            VdiEv.vdiCreate env.newVdiRef stream.footerCurrentSize,
            VdiEv.deferDestroy env.newVdiRef,
            VdiEv.importContent env.newVdiRef format stream])) ∧
    (format ≠ VDI_FORMAT_VHD → stream.length = none →
      importVdi env stream format none = (.error .assertionFailed, [])) ∧
    (∀ n, format ≠ VDI_FORMAT_VHD → stream.length = some n →
      importVdi env stream format none
        = (.ok env.newVdiRef,
           [VdiEv.vdiCreate env.newVdiRef n,
            VdiEv.deferDestroy env.newVdiRef,
            VdiEv.importContent env.newVdiRef format stream])) := by
  refine ⟨fun hf => ?_, fun hf hl => ?_, fun n hf hl => ?_⟩
  · simp [importVdi, peekFooterFromStream, hf]
  · simp [importVdi, hf, hl]
  · simp [importVdi, hf, hl]

/-- Closed witness for C7: a VHD stream whose footer declares size 42, and a
raw stream without a length hint. -/
theorem claim_C7_witness :
    importVdi ⟨"vdiRef"⟩ ⟨42, none, [9, 9]⟩ VDI_FORMAT_VHD none
      = (.ok "vdiRef",
         [VdiEv.peekFooter, VdiEv.vdiCreate "vdiRef" 42, VdiEv.deferDestroy "vdiRef",
          VdiEv.importContent "vdiRef" VDI_FORMAT_VHD ⟨42, none, [9, 9]⟩]) ∧
    importVdi ⟨"vdiRef"⟩ ⟨42, none, [9, 9]⟩ VDI_FORMAT_RAW none
      = (.error .assertionFailed, []) := by
  have h₁ := claim_C7 ⟨"vdiRef"⟩ ⟨42, none, [9, 9]⟩ VDI_FORMAT_VHD
  have h₂ := claim_C7 ⟨"vdiRef"⟩ ⟨42, none, [9, 9]⟩ VDI_FORMAT_RAW
  exact ⟨h₁.1 rfl, h₂.2.1 (by decide) rfl⟩

/-! ## `disableMaintenanceMode` lemmas and C3 -/

theorem disable_plugs_fold (env : DisEnv) (l : List String) (acc : List Ev × List ItemError) :
    l.foldl (fun acc uuid =>
        if env.plugOk uuid then (acc.1 ++ [Ev.pbdPlug uuid], acc.2)
        else (acc.1 ++ [Ev.pbdPlug uuid], acc.2 ++ [ItemError.plugFailed uuid])) acc
      = (acc.1 ++ l.map Ev.pbdPlug,
         acc.2 ++ (l.filter (fun u => !env.plugOk u)).map ItemError.plugFailed) := by
  induction l generalizing acc with
  | nil => simp
  | cons u t ih =>
    rw [List.foldl_cons, ih]
    cases h : env.plugOk u <;> simp [h, List.filter_cons]

theorem disable_starts_fold (env : DisEnv) (l : List (String × Bool))
    (acc : List Ev × List ItemError) :
    l.foldl (fun acc e =>
        if env.startOk e.1 then (acc.1 ++ [Ev.vmStart e.1 e.2], acc.2)
        else (acc.1 ++ [Ev.vmStart e.1 e.2], acc.2 ++ [ItemError.startFailed e.1])) acc
      = (acc.1 ++ l.map (fun e => Ev.vmStart e.1 e.2),
         acc.2 ++ (l.filter (fun e => !env.startOk e.1)).map
           (fun e => ItemError.startFailed e.1)) := by
  induction l generalizing acc with
  | nil => simp
  | cons e t ih =>
    rw [List.foldl_cons, ih]
    cases h : env.startOk e.1 <;> simp [h, List.filter_cons]

theorem disable_eq (env : DisEnv) (s : MaintState) (hm : env.maintenanceState = some s) :
    disableMaintenanceMode env
      = (if ((s.unpluggedPbds.filter (fun u => !env.plugOk u)).map ItemError.plugFailed
              ++ (s.shutdownVms.filter (fun e => !env.startOk e.1)).map
                  (fun e => ItemError.startFailed e.1)).isEmpty
          then .ok ()
          else .error (.aggregate
            ((s.unpluggedPbds.filter (fun u => !env.plugOk u)).map ItemError.plugFailed
              ++ (s.shutdownVms.filter (fun e => !env.startOk e.1)).map
                  (fun e => ItemError.startFailed e.1))),
         Ev.srRemoveMaintenance ::
           (s.unpluggedPbds.map Ev.pbdPlug
             ++ s.shutdownVms.map (fun e => Ev.vmStart e.1 e.2))) := by
  simp only [disableMaintenanceMode, hm]
  rw [disable_plugs_fold, disable_starts_fold]
  simp

/-- **C3.** `disableMaintenanceMode` on storage carrying a maintenance state:
the metadata key removal is the very first remote effect of the trace — so it
happens even when every later reattach and restart fails, since the rest of
the trace and the result do not influence it; every recorded unplugged PBD is
re-plugged and every recorded VM is restarted with its recorded pause flag,
regardless of other items' failures; the call returns normally when no item
failed and otherwise raises an aggregate error containing exactly one entry
per failed item (the failed plugs, then the failed starts). -/
theorem claim_C3 (env : DisEnv) (s : MaintState) (hm : env.maintenanceState = some s) :
    ((disableMaintenanceMode env).2).head? = some Ev.srRemoveMaintenance ∧
    (∀ u ∈ s.unpluggedPbds, Ev.pbdPlug u ∈ (disableMaintenanceMode env).2) ∧
    (∀ e ∈ s.shutdownVms, Ev.vmStart e.1 e.2 ∈ (disableMaintenanceMode env).2) ∧
    ((s.unpluggedPbds.filter (fun u => !env.plugOk u) = [] ∧
        s.shutdownVms.filter (fun e => !env.startOk e.1) = []) →
      (disableMaintenanceMode env).1 = .ok ()) ∧
    ((s.unpluggedPbds.filter (fun u => !env.plugOk u) ≠ [] ∨
        s.shutdownVms.filter (fun e => !env.startOk e.1) ≠ []) →
      (disableMaintenanceMode env).1
        = .error (.aggregate
            ((s.unpluggedPbds.filter (fun u => !env.plugOk u)).map ItemError.plugFailed
              ++ (s.shutdownVms.filter (fun e => !env.startOk e.1)).map
                  (fun e => ItemError.startFailed e.1)))) := by
  have hd := disable_eq env s hm
  refine ⟨?_, ?_, ?_, ?_, ?_⟩
  · rw [hd]
    rfl
  · intro u hu
    rw [hd]
    simp only [List.mem_cons, List.mem_append, List.mem_map]
    exact Or.inr (Or.inl ⟨u, hu, rfl⟩)
  · intro e he
    rw [hd]
    simp only [List.mem_cons, List.mem_append, List.mem_map]
    exact Or.inr (Or.inr ⟨e, he, rfl⟩)
  · intro h
    rw [hd]
    simp [h.1, h.2]
  · intro h
    rw [hd]
    have hne : ((s.unpluggedPbds.filter (fun u => !env.plugOk u)).map ItemError.plugFailed
        ++ (s.shutdownVms.filter (fun e => !env.startOk e.1)).map
            (fun e => ItemError.startFailed e.1)) ≠ [] := by
      rcases h with h | h <;> simp [List.map_eq_nil_iff, h]
    simp [List.isEmpty_iff, hne]

/-- Closed witness for C3: one recorded PBD whose re-plug fails, one recorded
VM whose restart succeeds. -/
theorem claim_C3_witness :
    ((disableMaintenanceMode disEnv1).2).head? = some Ev.srRemoveMaintenance ∧
    Ev.vmStart "vmU" false ∈ (disableMaintenanceMode disEnv1).2 ∧
    (disableMaintenanceMode disEnv1).1
      = .error (.aggregate [ItemError.plugFailed "pbdU"]) := by
  have h := claim_C3 disEnv1 ⟨3, [("vmU", false)], ["pbdU"]⟩ rfl
  refine ⟨h.1, h.2.2.1 ("vmU", false) (by decide), ?_⟩
  have he := h.2.2.2.2 (Or.inl (by decide))
  rw [he]
  rfl

/-! ## Shutdown/PBD phase shape lemmas -/

theorem shutdownStep_parts (env : SrEnv)
    (acc : List (String × Bool) × List Ev × List DeferAction × Option SrError)
    (vm : String × Bool) :
    ((shutdownStep env acc vm).2.2.1 = acc.2.2.1 ++ [DeferAction.vmStart vm.1 vm.2] ∨
     (shutdownStep env acc vm).2.2.1 = acc.2.2.1) ∧
    ((shutdownStep env acc vm).2.1 = acc.2.1 ++ [Ev.vmCleanShutdown vm.1] ∨
     (shutdownStep env acc vm).2.1
       = acc.2.1 ++ [Ev.vmCleanShutdown vm.1, Ev.vmHardShutdown vm.1]) := by
  obtain ⟨entries, tr, defers, err⟩ := acc
  obtain ⟨ref, isPaused⟩ := vm
  cases hc : env.cleanOk ref
  · cases hh : env.hardOk ref <;> simp [shutdownStep, hc, hh]
  · simp [shutdownStep, hc]

theorem foldl_shutdown_defers (env : SrEnv) (l : List (String × Bool))
    (acc : List (String × Bool) × List Ev × List DeferAction × Option SrError)
    (h : ∀ a ∈ acc.2.2.1, ∃ r p, a = DeferAction.vmStart r p) :
    ∀ a ∈ (l.foldl (shutdownStep env) acc).2.2.1, ∃ r p, a = DeferAction.vmStart r p := by
  induction l generalizing acc with
  | nil => exact h
  | cons vm t ih =>
    rw [List.foldl_cons]
    refine ih _ ?_
    rcases (shutdownStep_parts env acc vm).1 with hs | hs <;> rw [hs]
    · intro a ha
      rcases List.mem_append.1 ha with ha | ha
      · exact h a ha
      · exact ⟨vm.1, vm.2, by simpa using ha⟩
    · exact h

theorem shutdownPhase_defers (env : SrEnv) (l : List (String × Bool)) :
    ∀ a ∈ (shutdownPhase env l).2.2.1, ∃ r p, a = DeferAction.vmStart r p :=
  foldl_shutdown_defers env l ([], [], [], none) (by simp)

theorem foldl_shutdown_trace (env : SrEnv) (l : List (String × Bool))
    (acc : List (String × Bool) × List Ev × List DeferAction × Option SrError)
    (h : ∀ ev ∈ acc.2.1,
      (∃ vm, ev = Ev.vmCleanShutdown vm) ∨ (∃ vm, ev = Ev.vmHardShutdown vm)) :
    ∀ ev ∈ (l.foldl (shutdownStep env) acc).2.1,
      (∃ vm, ev = Ev.vmCleanShutdown vm) ∨ (∃ vm, ev = Ev.vmHardShutdown vm) := by
  induction l generalizing acc with
  | nil => exact h
  | cons vm t ih =>
    rw [List.foldl_cons]
    refine ih _ ?_
    rcases (shutdownStep_parts env acc vm).2 with hs | hs <;> rw [hs] <;>
      intro ev he <;> rcases List.mem_append.1 he with he | he
    · exact h ev he
    · exact Or.inl ⟨vm.1, by simpa using he⟩
    · exact h ev he
    · rcases List.mem_cons.1 he with he | he
      · exact Or.inl ⟨vm.1, he⟩
      · exact Or.inr ⟨vm.1, by simpa using he⟩

theorem shutdownPhase_trace (env : SrEnv) (l : List (String × Bool)) :
    ∀ ev ∈ (shutdownPhase env l).2.1,
      (∃ vm, ev = Ev.vmCleanShutdown vm) ∨ (∃ vm, ev = Ev.vmHardShutdown vm) :=
  foldl_shutdown_trace env l ([], [], [], none) (by simp)

theorem pbdStep_parts (env : SrEnv)
    (acc : List String × List Ev × List DeferAction × Option SrError) (pbd : String) :
    ((pbdStep env acc pbd).2.2.1 = acc.2.2.1 ++ [DeferAction.pbdPlug pbd] ∨
     (pbdStep env acc pbd).2.2.1 = acc.2.2.1) ∧
    ((pbdStep env acc pbd).2.1 = acc.2.1 ++ [Ev.pbdUnplug pbd] ∨
     (pbdStep env acc pbd).2.1 = acc.2.1) := by
  obtain ⟨uuids, tr, defers, err⟩ := acc
  cases ha : env.pbdAttached pbd
  · simp [pbdStep, ha]
  · cases hu : env.unplugOk pbd <;> simp [pbdStep, ha, hu]

theorem foldl_pbd_defers (env : SrEnv) (l : List String)
    (acc : List String × List Ev × List DeferAction × Option SrError)
    (h : ∀ a ∈ acc.2.2.1, ∃ r, a = DeferAction.pbdPlug r) :
    ∀ a ∈ (l.foldl (pbdStep env) acc).2.2.1, ∃ r, a = DeferAction.pbdPlug r := by
  induction l generalizing acc with
  | nil => exact h
  | cons pbd t ih =>
    rw [List.foldl_cons]
    refine ih _ ?_
    rcases (pbdStep_parts env acc pbd).1 with hs | hs <;> rw [hs]
    · intro a ha
      rcases List.mem_append.1 ha with ha | ha
      · exact h a ha
      · exact ⟨pbd, by simpa using ha⟩
    · exact h

theorem pbdPhase_defers (env : SrEnv) (l : List String) :
    ∀ a ∈ (pbdPhase env l).2.2.1, ∃ r, a = DeferAction.pbdPlug r :=
  foldl_pbd_defers env l ([], [], [], none) (by simp)

theorem foldl_pbd_trace (env : SrEnv) (l : List String)
    (acc : List String × List Ev × List DeferAction × Option SrError)
    (h : ∀ ev ∈ acc.2.1, ∃ p, ev = Ev.pbdUnplug p) :
    ∀ ev ∈ (l.foldl (pbdStep env) acc).2.1, ∃ p, ev = Ev.pbdUnplug p := by
  induction l generalizing acc with
  | nil => exact h
  | cons pbd t ih =>
    rw [List.foldl_cons]
    refine ih _ ?_
    rcases (pbdStep_parts env acc pbd).2 with hs | hs <;> rw [hs]
    · intro ev he
      rcases List.mem_append.1 he with he | he
      · exact h ev he
      · exact ⟨pbd, by simpa using he⟩
    · exact h

theorem pbdPhase_trace (env : SrEnv) (l : List String) :
    ∀ ev ∈ (pbdPhase env l).2.1, ∃ p, ev = Ev.pbdUnplug p :=
  foldl_pbd_trace env l ([], [], [], none) (by simp)

/-! ## Compensation lemmas and C2 -/

theorem runOnFailure_shape (starts plugs : List DeferAction) :
    runOnFailure (DeferAction.removeMaintenance :: (starts ++ plugs))
      = plugs.reverse.map deferEvent ++ starts.reverse.map deferEvent
          ++ [Ev.srRemoveMaintenance] := by
  simp [runOnFailure, deferEvent]

theorem enableMaintenanceMode_of_error (env : SrEnv) (vms : List String) (e : SrError)
    (he : (enableBody env vms).1 = .error e) :
    enableMaintenanceMode env vms
      = (.error e, (enableBody env vms).2.1 ++ runOnFailure (enableBody env vms).2.2) := by
  simp [enableMaintenanceMode, he]

theorem enableMaintenanceMode_of_ok (env : SrEnv) (vms : List String)
    (he : (enableBody env vms).1 = .ok ()) :
    enableMaintenanceMode env vms = (.ok (), (enableBody env vms).2.1) := by
  simp [enableMaintenanceMode, he]

/-- **C2.** If the body of `enableMaintenanceMode` fails at any point after
the placeholder metadata write (the maintenance key was absent, so the write
succeeded), the compensating actions recorded so far are exactly the
metadata-key removal followed by some `VM.start` restarts followed by some
`PBD.plug` reattachments, and the full trace is the body's trace followed by
the compensation calls in strict reverse registration order — reattach the
detached connections, then restart the shut-down VMs with their original
pause flags, then remove the maintenance metadata key — with every recorded
action's call present in the trace (a failing compensation does not stop the
rest), and the original error is rethrown; if the body succeeds, no
compensating call is appended. -/
theorem claim_C2 (env : SrEnv) (vms : List String)
    (hm : env.maintenancePresent = false) :
    (∀ e, (enableBody env vms).1 = .error e →
      (enableMaintenanceMode env vms).1 = .error e ∧
      ∃ starts plugs,
        (enableBody env vms).2.2 = DeferAction.removeMaintenance :: (starts ++ plugs) ∧
        (∀ a ∈ starts, ∃ r p, a = DeferAction.vmStart r p) ∧
        (∀ a ∈ plugs, ∃ r, a = DeferAction.pbdPlug r) ∧
        (enableMaintenanceMode env vms).2
          = (enableBody env vms).2.1
              ++ (plugs.reverse.map deferEvent ++ starts.reverse.map deferEvent
                  ++ [Ev.srRemoveMaintenance])) ∧
    ((enableBody env vms).1 = .ok () →
      (enableMaintenanceMode env vms).2 = (enableBody env vms).2.1) := by
  constructor
  · intro e he
    have hfull := enableMaintenanceMode_of_error env vms e he
    refine ⟨by rw [hfull], ?_⟩
    cases hany : (((collectRunningVms env).1.map (fun e => env.vmUuid e.1)).any
        (fun u => decide (u ∉ vms)))
    · cases hs : (shutdownPhase env (collectRunningVms env).1).2.2.2 with
      | none =>
        cases hp : (pbdPhase env env.pbds).2.2.2 with
        | none =>
          rw [enableBody_ok env vms hm hany hs hp] at he
          exact absurd he (by simp)
        | some e₁ =>
          have hbody := enableBody_pbdFail env vms e₁ hm hany hs hp
          refine ⟨(shutdownPhase env (collectRunningVms env).1).2.2.1,
            (pbdPhase env env.pbds).2.2.1, by rw [hbody],
            shutdownPhase_defers env _, pbdPhase_defers env _, ?_⟩
          rw [hfull, hbody, runOnFailure_shape]
      | some e₀ =>
        have hbody := enableBody_shutdownFail env vms e₀ hm hany hs
        refine ⟨(shutdownPhase env (collectRunningVms env).1).2.2.1, [],
          by rw [hbody]; simp, shutdownPhase_defers env _, by simp, ?_⟩
        rw [hfull, hbody]
        have := runOnFailure_shape (shutdownPhase env (collectRunningVms env).1).2.2.1 []
        simp only [List.append_nil] at this
        rw [this]
    · have hbody := enableBody_mismatch env vms hm hany
      refine ⟨[], [], by rw [hbody]; simp, by simp, by simp, ?_⟩
      rw [hfull, hbody]
      have := runOnFailure_shape [] []
      simp only [List.append_nil] at this
      rw [this]
  · intro hok
    exact (enableMaintenanceMode_of_ok env vms hok) ▸ rfl

/-- Closed witness for C2: `vmA` shuts down (registering its restart), `vmB`
fails both shutdowns; the original error is rethrown and the compensation
calls — restart `vmA`, then remove the metadata key — are appended to the
trace. -/
theorem claim_C2_witness :
    (enableMaintenanceMode envTwoVms ["vmA", "vmB"]).1
      = .error (.shutdownFailed "vmB") ∧
    (enableMaintenanceMode envTwoVms ["vmA", "vmB"]).2
      = (enableBody envTwoVms ["vmA", "vmB"]).2.1
          ++ ([DeferAction.vmStart "vmA" false].reverse.map deferEvent
              ++ [Ev.srRemoveMaintenance]) := by
  have h := (claim_C2 envTwoVms ["vmA", "vmB"] rfl).1 (.shutdownFailed "vmB") (by rfl)
  obtain ⟨h₁, starts, plugs, hdef, hstarts, hplugs, htr⟩ := h
  have key : starts = [DeferAction.vmStart "vmA" false] ∧ plugs = [] := by
    have hbd : (enableBody envTwoVms ["vmA", "vmB"]).2.2
        = [DeferAction.removeMaintenance, DeferAction.vmStart "vmA" false] := rfl
    rw [hbd] at hdef
    have hsp : starts ++ plugs = [DeferAction.vmStart "vmA" false] := by
      simpa using hdef.symm
    cases starts with
    | nil =>
      simp only [List.nil_append] at hsp
      obtain ⟨r, hr⟩ := hplugs (DeferAction.vmStart "vmA" false) (by rw [hsp]; simp)
      exact absurd hr (by simp)
    | cons a t =>
      simp only [List.cons_append, List.cons.injEq] at hsp
      obtain ⟨ha, ht⟩ := hsp
      obtain ⟨h₃, h₄⟩ := List.append_eq_nil.1 ht
      exact ⟨by rw [ha, h₃], h₄⟩
  refine ⟨h₁, ?_⟩
  rw [htr, key.1, key.2]
  simp

/-! ## Remote metadata view and C8 -/

theorem remoteMaint_foldl_neutral (l : List Ev)
    (h : ∀ ev ∈ l, ∀ r, remoteMaintStep r ev = r) :
    ∀ r, l.foldl remoteMaintStep r = r := by
  induction l with
  | nil => intro r; rfl
  | cons ev t ih =>
    intro r
    rw [List.foldl_cons, h ev (List.mem_cons_self ev t) r]
    exact ih (fun e he r => h e (List.mem_cons_of_mem _ he) r) r

theorem srSet_not_mem_of_neutral (l : List Ev)
    (h : ∀ ev ∈ l, ∀ r, remoteMaintStep r ev = r) (s : MaintState) :
    Ev.srSetMaintenance s ∉ l := by
  intro hmem
  have := h _ hmem none
  simp [remoteMaintStep] at this

theorem remoteMaint_placeholder (ts : Nat) (rest : List Ev)
    (h : ∀ ev ∈ rest, ∀ r, remoteMaintStep r ev = r) :
    remoteMaintValue (Ev.srAddMaintenance ts :: rest) = some (Sum.inl ts) := by
  rw [remoteMaintValue, List.foldl_cons]
  exact remoteMaint_foldl_neutral rest h _

theorem neutral_append (a b : List Ev)
    (ha : ∀ ev ∈ a, ∀ r, remoteMaintStep r ev = r)
    (hb : ∀ ev ∈ b, ∀ r, remoteMaintStep r ev = r) :
    ∀ ev ∈ a ++ b, ∀ r, remoteMaintStep r ev = r := by
  intro ev he r
  rcases List.mem_append.1 he with h | h
  · exact ha ev h r
  · exact hb ev h r

theorem collect_neutral (env : SrEnv) :
    ∀ ev ∈ (collectRunningVms env).2, ∀ r, remoteMaintStep r ev = r := by
  intro ev he r
  obtain ⟨vm, rfl⟩ := collectRunningVms_reads env ev he
  rfl

theorem shutdown_neutral (env : SrEnv) (l : List (String × Bool)) :
    ∀ ev ∈ (shutdownPhase env l).2.1, ∀ r, remoteMaintStep r ev = r := by
  intro ev he r
  rcases shutdownPhase_trace env l ev he with ⟨vm, rfl⟩ | ⟨vm, rfl⟩ <;> rfl

theorem pbd_neutral (env : SrEnv) (l : List String) :
    ∀ ev ∈ (pbdPhase env l).2.1, ∀ r, remoteMaintStep r ev = r := by
  intro ev he r
  obtain ⟨p, rfl⟩ := pbdPhase_trace env l ev he
  rfl

/-- Counterexample to **C8** as stated: on `envTwoVms`, `vmA`'s shutdown
completes and then `vmB`'s shutdown fails, so the body fails after one
successful shutdown — yet the remotely persisted maintenance record at that
point is still the bare placeholder (`timestamp` 7 only, `Sum.inl`), not a
record listing the already-shut-down `vmA`: `state.shutdownVms` is a local
object, persisted only by the single final write that never ran. -/
theorem claim_C8_cex :
    (enableBody envTwoVms ["vmA", "vmB"]).1 = .error (.shutdownFailed "vmB") ∧
    Ev.vmCleanShutdown "vmA" ∈ (enableBody envTwoVms ["vmA", "vmB"]).2.1 ∧
    remoteMaintValue (enableBody envTwoVms ["vmA", "vmB"]).2.1
      = some (Sum.inl 7) := by
  refine ⟨rfl, by decide, rfl⟩

/-- **C8 (amended).** Each shut-down VM's uuid→wasPaused entry is recorded
only in the local `state` object during the shutdown loop; the remote
maintenance record is written in one final batch write: when the body fails,
no `setFieldEntry` of the maintenance state was issued at all and the
remotely persisted record is still the bare placeholder written at entry;
when the body succeeds, exactly one such write occurs, as the last call of
the trace. -/
theorem claim_C8 (env : SrEnv) (vms : List String)
    (hm : env.maintenancePresent = false) :
    (∀ e, (enableBody env vms).1 = .error e →
      (∀ s, Ev.srSetMaintenance s ∉ (enableBody env vms).2.1) ∧
      remoteMaintValue (enableBody env vms).2.1 = some (Sum.inl env.timestamp)) ∧
    ((enableBody env vms).1 = .ok () →
      ∃ tr s, (enableBody env vms).2.1 = tr ++ [Ev.srSetMaintenance s] ∧
        ∀ s₀, Ev.srSetMaintenance s₀ ∉ tr) := by
  constructor
  · intro e he
    cases hany : (((collectRunningVms env).1.map (fun e => env.vmUuid e.1)).any
        (fun u => decide (u ∉ vms)))
    · cases hs : (shutdownPhase env (collectRunningVms env).1).2.2.2 with
      | none =>
        cases hp : (pbdPhase env env.pbds).2.2.2 with
        | none =>
          simp [enableBody_ok env vms hm hany hs hp] at he
        | some e₁ =>
          have hbody := enableBody_pbdFail env vms e₁ hm hany hs hp
          have hrest := neutral_append _ _ (collect_neutral env)
            (neutral_append _ _ (shutdown_neutral env (collectRunningVms env).1) (pbd_neutral env env.pbds))
          refine ⟨fun s hmem => ?_, ?_⟩
          · simp only [hbody] at hmem
            rcases List.mem_cons.1 hmem with h | h
            · exact Ev.noConfusion h
            · exact srSet_not_mem_of_neutral _ hrest s h
          · simp only [hbody]
            exact remoteMaint_placeholder env.timestamp _ hrest
      | some e₀ =>
        have hbody := enableBody_shutdownFail env vms e₀ hm hany hs
        have hrest := neutral_append _ _ (collect_neutral env) (shutdown_neutral env (collectRunningVms env).1)
        refine ⟨fun s hmem => ?_, ?_⟩
        · simp only [hbody] at hmem
          rcases List.mem_cons.1 hmem with h | h
          · exact Ev.noConfusion h
          · exact srSet_not_mem_of_neutral _ hrest s h
        · simp only [hbody]
          exact remoteMaint_placeholder env.timestamp _ hrest
    · have hbody := enableBody_mismatch env vms hm hany
      have hrest := collect_neutral env
      refine ⟨fun s hmem => ?_, ?_⟩
      · simp only [hbody] at hmem
        rcases List.mem_cons.1 hmem with h | h
        · exact Ev.noConfusion h
        · exact srSet_not_mem_of_neutral _ hrest s h
      · simp only [hbody]
        exact remoteMaint_placeholder env.timestamp _ hrest
  · intro hok
    cases hany : (((collectRunningVms env).1.map (fun e => env.vmUuid e.1)).any
        (fun u => decide (u ∉ vms)))
    · cases hs : (shutdownPhase env (collectRunningVms env).1).2.2.2 with
      | none =>
        cases hp : (pbdPhase env env.pbds).2.2.2 with
        | none =>
          have hbody := enableBody_ok env vms hm hany hs hp
          refine ⟨Ev.srAddMaintenance env.timestamp ::
              ((collectRunningVms env).2 ++
                ((shutdownPhase env (collectRunningVms env).1).2.1
                  ++ (pbdPhase env env.pbds).2.1)),
            ⟨env.timestamp, (shutdownPhase env (collectRunningVms env).1).1,
             (pbdPhase env env.pbds).1⟩, ?_, ?_⟩
          · simp only [hbody]
            simp
          · intro s₀ hmem
            rcases List.mem_cons.1 hmem with h | h
            · exact Ev.noConfusion h
            · exact srSet_not_mem_of_neutral _
                (neutral_append _ _ (collect_neutral env)
                  (neutral_append _ _ (shutdown_neutral env (collectRunningVms env).1) (pbd_neutral env env.pbds)))
                s₀ h
        | some e₁ =>
          simp [enableBody_pbdFail env vms e₁ hm hany hs hp] at hok
      | some e₀ =>
        simp [enableBody_shutdownFail env vms e₀ hm hany hs] at hok
    · simp [enableBody_mismatch env vms hm hany] at hok

/-- Closed witness for C8 (amended): after `vmB`'s failed shutdown the
remote record on `envTwoVms` is still the placeholder with timestamp 7. -/
theorem claim_C8_witness :
    remoteMaintValue (enableBody envTwoVms ["vmA", "vmB"]).2.1
      = some (Sum.inl 7) := by
  have h := (claim_C8 envTwoVms ["vmA", "vmB"] rfl).1 (.shutdownFailed "vmB") (by rfl)
  exact h.2

end XenOrchestra
